import Mathlib

/-!
Shallow embedding of the Robot Command Control Plane backend
(`src/backend/safety.py`, `src/backend/status_store.py`,
`src/backend/command_manager.py`, `src/backend/model_runner.py`,
`src/backend/app.py`) together with theorems settling the spec claims.

Python dict values that occur in status records are modelled by `Val`;
status records and patches are dicts, modelled as association lists from
string keys to `Val`.  Floats in the source only ever hold exact decimal
values, so they are modelled as rationals.
-/

/-- A JSON-ish value stored in a status record (Python dict value). -/
inductive Val where
  | null : Val
  | str : String → Val
  | num : ℚ → Val
  | int : ℤ → Val
deriving DecidableEq, Repr

/-- A Python dict with string keys, as used for Status records and patches. -/
abbrev Dict := List (String × Val)

/-- Lookup of a key in an association list (first match wins, like a dict). -/
def assocGet {β : Type} (d : List (String × β)) (k : String) : Option β :=
  match d with
  | [] => none
  | kv :: rest => if kv.1 = k then some kv.2 else assocGet rest k

/-- `d[k] = v` on an association list: replace the first binding of `k`
in place if present, else append — mirroring Python dict assignment. -/
def assocSet {β : Type} (d : List (String × β)) (k : String) (v : β) : List (String × β) :=
  match d with
  | [] => [(k, v)]
  | kv :: rest => if kv.1 = k then (k, v) :: rest else kv :: assocSet rest k v

/-- `d.update(patch)`: apply every binding of the patch, in order. -/
def dictUpdate (d patch : Dict) : Dict :=
  patch.foldl (fun acc kv => assocSet acc kv.1 kv.2) d

/-- A control chunk as consumed by the worker: a dict with optional
`phase`, `targets` and `confidence` entries (`src/backend/model_runner.py`
yields all three; `SafetyManager.validate_targets` reads only `targets`). -/
structure Chunk where
  phase : Option String
  targets : Option (List ℚ)
  confidence : Option ℚ
deriving DecidableEq, Repr

/-- Default joint minimum limits of `SafetyManager.__init__`
(`src/backend/safety.py`): `[-2.5] * 6` radians. -/
def SafetyManager.joint_min : List ℚ :=
  [-5/2, -5/2, -5/2, -5/2, -5/2, -5/2]

/-- Default joint maximum limits of `SafetyManager.__init__`: `[2.5] * 6`. -/
def SafetyManager.joint_max : List ℚ :=
  [5/2, 5/2, 5/2, 5/2, 5/2, 5/2]

/-- `SafetyManager.validate_targets` (`src/backend/safety.py`):
reads `chunk.get("targets")`; returns `False` when the value is missing,
falsy (empty list) or not of length 6, and `True` otherwise.  The joint
range comparison is absent from the body (the source comments say the
safety checks are skipped). -/
def SafetyManager.validate_targets (chunk : Chunk) : Bool :=
  match chunk.targets with
  | none => false
  | some targets => if targets.isEmpty || targets.length != 6 then false else true

/-- `SafetyManager.ready_to_throw(joints)`:
`len(joints) == 6 and abs(joints[2]) < 0.25`. -/
def SafetyManager.ready_to_throw (joints : List ℚ) : Bool :=
  joints.length == 6 && decide (|joints.getD 2 0| < 1/4)

/-- `SafetyManager.workspace_clear()`: the body returns `True`. -/
def SafetyManager.workspace_clear : Bool := true

/-- Pacing delay of the worker loop (`src/backend/command_manager.py`):
`time.sleep(1.0 / max(1, self.model.rate_hz))` with `rate_hz : int`. -/
def pacingDelay (rate_hz : ℤ) : ℚ := 1 / ((max 1 rate_hz : ℤ) : ℚ)

/-- The status store's map, `StatusStore._data : Dict[str, dict]`
(`src/backend/status_store.py`). -/
abbrev Store := List (String × Dict)

/-- `StatusStore.create(request_id, initial)`:
`self._data[request_id] = dict(initial)`. -/
def StatusStore.create (s : Store) (request_id : String) (initial : Dict) : Store :=
  assocSet s request_id initial

/-- `StatusStore.update(request_id, patch)`:
`if request_id in self._data: self._data[request_id].update(patch)` —
the record is merged field-wise when the id is present, and the call is a
no-op otherwise.  There is no check of the record's current state. -/
def StatusStore.update (s : Store) (request_id : String) (patch : Dict) : Store :=
  s.map fun kv => if kv.1 = request_id then (kv.1, dictUpdate kv.2 patch) else kv

/-- `StatusStore.get(request_id)`: a snapshot, or `None` if absent. -/
def StatusStore.get (s : Store) (request_id : String) : Option Dict :=
  assocGet s request_id

/-- The prompt whitelist `ALLOWED_PROMPTS` of `src/backend/app.py`
(defined at module level; the `/command` route body never consults it). -/
def ALLOWED_PROMPTS : List String := ["pick up the ball", "get the treat", "go home"]

/-- Task name chosen by the `/command` route from `body.get("command")`:
`"throw_act"` when the command value is `1`, else `"pet"`. -/
def commandTaskName (body : Dict) : String :=
  if assocGet body "command" = some (Val.int 1) then "throw_act" else "pet"

/-- Initial status record created by the `/command` route of
`src/backend/app.py`:
`{state: "queued", phase: None, message: f"robot episode queued ({task_name})"}`. -/
def commandInitialStatus (body : Dict) : Dict :=
  [("state", Val.str "queued"), ("phase", Val.null),
   ("message", Val.str ("robot episode queued (" ++ commandTaskName body ++ ")"))]

/-- The `/command` route of `src/backend/app.py` (`command()`): parses the
body, picks a task from `body.get("command")`, mints a request id (modelled
as the `freshId` argument), creates a queued status record, spawns the
episode thread (whose later effects are outside this model) and returns
202 with the id.  No branch inspects a prompt or returns 400/409. -/
def commandRoute (body : Dict) (store : Store) (freshId : String) : ℕ × Store :=
  (202, StatusStore.create store freshId (commandInitialStatus body))

/-- State of a `CommandManager` (`src/backend/command_manager.py`):
the active slot `_active_req_id`, the `_cancel_event` flag, and the
shared status store. -/
structure CMState where
  active : Option String
  cancel : Bool
  store : Store
deriving DecidableEq, Repr

/-- Initial status record written by `CommandManager.start`:
`{state: "planning", phase: None, message: f"Accepted: {prompt}"}`. -/
def planningStatus (prompt : String) : Dict :=
  [("state", Val.str "planning"), ("phase", Val.null),
   ("message", Val.str ("Accepted: " ++ prompt))]

/-- `CommandManager.start(prompt, options)`: under the active-slot lock,
raise `BusyError` (modelled as `.error ()`) when `_active_req_id` is not
`None`; otherwise mint a request id (modelled as the `freshId` argument,
standing for `uuid.uuid4()`), occupy the slot with it, clear the cancel
event, create the planning status, spawn the worker (modelled separately
as `run_job`) and return the id. -/
def CommandManager.start (st : CMState) (prompt : String) (freshId : String) :
    Except Unit (String × CMState) :=
  if st.active.isSome then
    Except.error ()
  else
    Except.ok (freshId,
      { active := some freshId, cancel := false,
        store := StatusStore.create st.store freshId (planningStatus prompt) })

/-- Observable actions of a worker run (`CommandManager._run_job` /
`CommandManager._run_home`), in program order.  `validate` records the
safety gate's call and its result, `update` a `StatusStore.update`,
`sleep` a pacing `time.sleep`, `clearActive` the `finally` block that
frees the active slot and clears the cancel event. -/
inductive Event where
  | armHome : Event
  | validate : Chunk → Bool → Event
  | sendTargets : Chunk → Event
  | throwMacroCall : Event
  | update : String → Dict → Event
  | sleep : ℚ → Event
  | clearActive : Event
deriving DecidableEq, Repr

/-- Patch of the worker's first update:
`{state: "executing", phase: "detect", message: "Detecting"}`. -/
def executingPatch : Dict :=
  [("state", Val.str "executing"), ("phase", Val.str "detect"),
   ("message", Val.str "Detecting")]

/-- Patch written when the cancel flag is observed:
`{state: "aborted", message: "Interrupted by Go Home"}`. -/
def abortedPatch : Dict :=
  [("state", Val.str "aborted"), ("message", Val.str "Interrupted by Go Home")]

/-- Patch written when `validate_targets` returns false:
`{state: "failed", message: "safety check failed"}`. -/
def safetyFailedPatch : Dict :=
  [("state", Val.str "failed"), ("message", Val.str "safety check failed")]

/-- `chunk.get("phase") or "executing"`: Python `or` falls through on a
falsy phase (`None` or the empty string). -/
def phaseOrExecuting (phase : Option String) : String :=
  match phase with
  | none => "executing"
  | some p => if p = "" then "executing" else p

/-- Per-chunk progress patch:
`{phase: chunk.get("phase"), confidence: chunk.get("confidence"),
message: phase or "executing"}`. -/
def chunkPatch (c : Chunk) : Dict :=
  [("phase", match c.phase with | none => Val.null | some p => Val.str p),
   ("confidence", match c.confidence with | none => Val.null | some q => Val.num q),
   ("message", Val.str (phaseOrExecuting c.phase))]

/-- Patch of the throw-macro branch:
`{state: "handoff_macro", message: "throwing"}`. -/
def handoffPatch : Dict :=
  [("state", Val.str "handoff_macro"), ("message", Val.str "throwing")]

/-- Final patch of a normally completed run: `{state: "succeeded",
message: "Completed", duration_ms: int((time.time() - t0) * 1000)}`;
the elapsed milliseconds are the model's `durMs` parameter. -/
def succeededPatch (durMs : ℤ) : Dict :=
  [("state", Val.str "succeeded"), ("message", Val.str "Completed"),
   ("duration_ms", Val.int durMs)]

/-- `_run_home` success patch: `{state: "succeeded", message: "At home pose"}`. -/
def homeSucceededPatch : Dict :=
  [("state", Val.str "succeeded"), ("message", Val.str "At home pose")]

/-- `_run_home` failure patch: `{state: "failed", message: f"home error: {e}"}`. -/
def homeFailedPatch (e : String) : Dict :=
  [("state", Val.str "failed"), ("message", Val.str ("home error: " ++ e))]

/-- How one run-loop iteration ended the whole loop, mirroring the three
ways Python leaves the `for chunk in self.model.infer(prompt)` loop. -/
inductive Outcome where
  | aborted : Outcome
  | safetyFailed : Outcome
  | completed : Outcome
deriving DecidableEq, Repr

/-- Events of one successfully gated loop iteration: the safety call,
the driver call, the progress update and the pacing sleep. -/
def chunkEvents (reqId : String) (rate : ℤ) (c : Chunk) : List Event :=
  [Event.validate c true, Event.sendTargets c,
   Event.update reqId (chunkPatch c), Event.sleep (pacingDelay rate)]

/-- The worker's chunk loop (`for chunk in self.model.infer(prompt)` in
`_run_job`).  `cancel i` is whether `self._cancel_event.is_set()` holds
when the `i`-th chunk is examined (cancellation can arrive between
iterations; the loop only reads the flag at the top of each one). -/
def runLoop (reqId : String) (rate : ℤ) (cancel : Nat → Bool) (i : Nat) :
    List Chunk → List Event × Outcome
  | [] => ([], Outcome.completed)
  | c :: rest =>
    if cancel i then
      ([Event.armHome, Event.update reqId abortedPatch], Outcome.aborted)
    else if SafetyManager.validate_targets c then
      let r := runLoop reqId rate cancel (i + 1) rest
      (chunkEvents reqId rate c ++ r.1, r.2)
    else
      ([Event.validate c false, Event.update reqId safetyFailedPatch],
       Outcome.safetyFailed)

/-- `CommandManager._run_job(req_id, prompt, options)` as the list of its
observable events.  `chunks` is the finite stream of the producer,
`joints` the value of `arm.get_joint_angles()` at the post-stream guard,
`durMs` the elapsed milliseconds at the success update.  Exceptions from
the arm or producer are not modelled (the mock adapters do not raise). -/
def run_job (reqId prompt : String) (chunks : List Chunk) (cancel : Nat → Bool)
    (rate : ℤ) (joints : List ℚ) (durMs : ℤ) : List Event :=
  let r := runLoop reqId rate cancel 0 chunks
  Event.update reqId executingPatch ::
  (r.1 ++
    (match r.2 with
     | Outcome.aborted => []
     | Outcome.safetyFailed => []
     | Outcome.completed =>
       (if prompt = "pick up the ball" && SafetyManager.ready_to_throw joints
           && SafetyManager.workspace_clear then
          [Event.throwMacroCall, Event.update reqId handoffPatch,
           Event.sleep (1/2)]
        else []) ++
       [Event.update reqId (succeededPatch durMs)]) ++
    [Event.clearActive])

/-- `CommandManager._run_home(req_id)` as its event list: `arm.home()`,
then the success update, or the failure update when `home` raises
(`homeError` carries the exception's message); the `finally` block clears
the slot either way. -/
def run_home (reqId : String) (homeError : Option String) : List Event :=
  (match homeError with
   | none => [Event.armHome, Event.update reqId homeSucceededPatch]
   | some e => [Event.armHome, Event.update reqId (homeFailedPatch e)]) ++
  [Event.clearActive]

/-- Phase table of `_infer_scripted` for `instruction == "get the treat"`
(`src/backend/model_runner.py`; target values are in degrees). -/
def treatPhases : List (String × List ℚ × ℚ) :=
  [("detect_1", ([0, 5, 0, 0, 0, 20], 70/100)),
   ("detect_2", ([0, 10, 5, 0, 0, 20], 72/100)),
   ("approach_1", ([10, 15, 8, -5, 0, 20], 75/100)),
   ("approach_2", ([15, 20, 10, -10, 0, 20], 77/100)),
   ("grasp_1", ([15, 22, 12, -12, 0, 35], 78/100)),
   ("grasp_2", ([15, 25, 15, -15, 0, 50], 80/100)),
   ("lift_1", ([12, 20, 17, -12, 0, 50], 81/100)),
   ("lift_2", ([10, 15, 20, -10, 0, 50], 82/100)),
   ("drop_1", ([7, 12, 15, -5, 0, 35], 83/100)),
   ("drop_2", ([5, 10, 10, 0, 0, 20], 84/100))]

/-- Phase table of `_infer_scripted` for `"pick up the ball"` and every
other instruction (the `else` branch). -/
def ballPhases : List (String × List ℚ × ℚ) :=
  [("detect_1", ([0, 5, 0, 0, 0, 20], 70/100)),
   ("detect_2", ([0, 10, 5, 0, 0, 20], 72/100)),
   ("approach_1", ([10, 15, 10, -5, 2, 20], 74/100)),
   ("approach_2", ([15, 20, 12, -8, 4, 20], 76/100)),
   ("approach_3", ([20, 25, 15, -10, 5, 20], 78/100)),
   ("grasp_1", ([20, 27, 17, -12, 5, 35], 79/100)),
   ("grasp_2", ([20, 30, 20, -15, 5, 50], 80/100)),
   ("lift_1", ([17, 25, 22, -12, 2, 50], 81/100)),
   ("lift_2", ([15, 20, 25, -10, 0, 50], 82/100)),
   ("ready_1", ([12, 17, 27, -7, 0, 50], 84/100)),
   ("ready_2", ([10, 15, 30, -5, 0, 50], 85/100))]

/-- One yielded scripted chunk:
`{"phase": phase, "targets": targets, "confidence": conf}`. -/
def scriptedChunk (p : String × List ℚ × ℚ) : Chunk :=
  { phase := some p.1, targets := some p.2.1, confidence := some p.2.2 }

/-- `ModelRunner._infer_scripted(instruction)`: the finite chunk stream of
the scripted producer (`mode == "scripted"`), as the list of its yields. -/
def ModelRunner.infer_scripted (instruction : String) : List Chunk :=
  (if instruction = "get the treat" then treatPhases else ballPhases).map
    scriptedChunk

/-- Adjacency checker: scanning with the previous event in hand, every
`sendTargets c` must sit immediately after `validate c true`. -/
def guardedFrom : Option Event → List Event → Bool
  | _, [] => true
  | prev, e :: rest =>
    (match e with
     | Event.sendTargets c => prev == some (Event.validate c true)
     | _ => true) && guardedFrom (some e) rest

/-- Whole-trace form of the checker, starting with no previous event. -/
def sendsGuarded (l : List Event) : Bool := guardedFrom none l

/-- A chunk with no entries, used as the `getD` default in statements. -/
def noChunk : Chunk := { phase := none, targets := none, confidence := none }

/-- Concatenated per-chunk events of a run whose every iteration passes
the gate. -/
def chunksEvents (reqId : String) (rate : ℤ) : List Chunk → List Event
  | [] => []
  | c :: rest => chunkEvents reqId rate c ++ chunksEvents reqId rate rest

/-- The last event of `l`, or `p` when `l` is empty. -/
def lastOr (p : Option Event) : List Event → Option Event
  | [] => p
  | e :: rest => lastOr (some e) rest

/-- A chunk whose first target is 10.0 (outside the default joint limits)
and whose remaining five targets are 0. -/
def c1Chunk : Chunk :=
  { phase := none, targets := some [10, 0, 0, 0, 0, 0], confidence := none }

/-- A store holding one record in the terminal state `succeeded`. -/
def c3Store : Store :=
  [("r", [("state", Val.str "succeeded"), ("message", Val.str "Completed")])]

/-- A well-formed chunk (6 targets) used in concrete runs. -/
def goodChunk : Chunk :=
  { phase := some "grasp_1", targets := some [0, 0, 0, 0, 0, 0],
    confidence := none }

/-- A malformed chunk (3 targets) rejected by the safety gate. -/
def badChunk : Chunk :=
  { phase := some "bad", targets := some [1, 2, 3], confidence := none }

/-- Whether a status value is one of the terminal states. -/
def isTerminalState (v : Option Val) : Bool :=
  v == some (Val.str "succeeded") || v == some (Val.str "failed") ||
    v == some (Val.str "aborted")

/-- Per-event check: a status update whose patch carries a terminal state
sets `duration_ms` exactly when that state is `succeeded`. -/
def durationOnlyOnSuccess (e : Event) : Bool :=
  match e with
  | Event.update _ p =>
    if isTerminalState (assocGet p "state") then
      (assocGet p "duration_ms").isSome ==
        decide (assocGet p "state" = some (Val.str "succeeded"))
    else true
  | _ => true

/-- Per-event check: a status update's patch has no `duration_ms` field. -/
def updateHasNoDuration (e : Event) : Bool :=
  match e with
  | Event.update _ p => assocGet p "duration_ms" == none
  | _ => true

theorem assocGet_assocSet_self {β : Type} (d : List (String × β)) (k : String) (v : β) :
    assocGet (assocSet d k v) k = some v := by
  induction d with
  | nil => simp [assocSet, assocGet]
  | cons kv rest ih =>
    by_cases h : kv.1 = k
    · simp [assocSet, assocGet, h]
    · simp [assocSet, assocGet, h, ih]

theorem assocGet_assocSet_ne {β : Type} (d : List (String × β)) (k k' : String) (v : β)
    (h : k' ≠ k) : assocGet (assocSet d k v) k' = assocGet d k' := by
  have hk' : ¬ (k = k') := fun hh => h hh.symm
  induction d with
  | nil => simp [assocSet, assocGet, hk']
  | cons kv rest ih =>
    by_cases hk : kv.1 = k
    · subst hk
      simp [assocSet, assocGet, hk']
    · simp only [assocSet, if_neg hk, assocGet]
      by_cases hkv : kv.1 = k'
      · simp [hkv]
      · simp [hkv, ih]

theorem guardedFrom_append (l1 : List Event) :
    ∀ (p : Option Event) (l2 : List Event),
      guardedFrom p (l1 ++ l2) =
        (guardedFrom p l1 && guardedFrom (lastOr p l1) l2) := by
  induction l1 with
  | nil => intro p l2; simp [guardedFrom, lastOr]
  | cons e rest ih =>
    intro p l2
    simp only [List.cons_append, guardedFrom, lastOr, List.append_eq, ih,
      Bool.and_assoc]

theorem guardedFrom_of_no_send (l : List Event)
    (h : ∀ c, Event.sendTargets c ∉ l) (p : Option Event) :
    guardedFrom p l = true := by
  induction l generalizing p with
  | nil => rfl
  | cons e rest ih =>
    have he : ∀ c, e ≠ Event.sendTargets c := by
      intro c hc
      exact h c (hc ▸ List.mem_cons_self e rest)
    have hrest : ∀ c, Event.sendTargets c ∉ rest := by
      intro c hc
      exact h c (List.mem_cons_of_mem e hc)
    cases e with
    | sendTargets c => exact absurd rfl (he c)
    | armHome => simp [guardedFrom, ih hrest]
    | validate c b => simp [guardedFrom, ih hrest]
    | throwMacroCall => simp [guardedFrom, ih hrest]
    | update id p' => simp [guardedFrom, ih hrest]
    | sleep q => simp [guardedFrom, ih hrest]
    | clearActive => simp [guardedFrom, ih hrest]

theorem guardedFrom_chunkEvents (reqId : String) (rate : ℤ) (c : Chunk)
    (p : Option Event) : guardedFrom p (chunkEvents reqId rate c) = true := by
  simp [chunkEvents, guardedFrom]

theorem guardedFrom_runLoop (reqId : String) (rate : ℤ) (cancel : Nat → Bool)
    (chunks : List Chunk) :
    ∀ (s : Nat) (p : Option Event),
      guardedFrom p (runLoop reqId rate cancel s chunks).1 = true := by
  induction chunks with
  | nil => intro s p; rfl
  | cons c rest ih =>
    intro s p
    by_cases hc : cancel s = true
    · simp [runLoop, hc, guardedFrom]
    · have hc' : cancel s = false := by
        cases h : cancel s
        · rfl
        · exact absurd h hc
      by_cases hv : SafetyManager.validate_targets c = true
      · simp only [runLoop, hc', Bool.false_eq_true, if_false, hv, if_true]
        rw [guardedFrom_append]
        simp [guardedFrom_chunkEvents, ih]
      · have hv' : SafetyManager.validate_targets c = false := by
          cases h : SafetyManager.validate_targets c
          · rfl
          · exact absurd h hv
        simp [runLoop, hc', hv', guardedFrom]

theorem runLoop_completed_eq (reqId : String) (rate : ℤ) (cancel : Nat → Bool)
    (chunks : List Chunk) :
    ∀ (s : Nat),
      (∀ j, j < chunks.length → cancel (s + j) = false ∧
        SafetyManager.validate_targets (chunks.getD j noChunk) = true) →
      runLoop reqId rate cancel s chunks =
        (chunksEvents reqId rate chunks, Outcome.completed) := by
  induction chunks with
  | nil => intro s _; rfl
  | cons c rest ih =>
    intro s h
    have h0 := h 0 (Nat.succ_pos rest.length)
    rw [Nat.add_zero] at h0
    simp only [List.getD_cons_zero] at h0
    have hrest : ∀ j, j < rest.length → cancel (s + 1 + j) = false ∧
        SafetyManager.validate_targets (rest.getD j noChunk) = true := by
      intro j hj
      have := h (j + 1) (Nat.succ_lt_succ hj)
      rw [List.getD_cons_succ] at this
      have heq : s + 1 + j = s + (j + 1) := by omega
      rw [heq]
      exact this
    simp [runLoop, h0.1, h0.2, ih (s + 1) hrest, chunksEvents]

theorem runLoop_cancel_eq (reqId : String) (rate : ℤ) (cancel : Nat → Bool) :
    ∀ (i : Nat) (chunks : List Chunk) (s : Nat),
      i < chunks.length →
      (∀ j, j < i → cancel (s + j) = false ∧
        SafetyManager.validate_targets (chunks.getD j noChunk) = true) →
      cancel (s + i) = true →
      runLoop reqId rate cancel s chunks =
        (chunksEvents reqId rate (chunks.take i) ++
          [Event.armHome, Event.update reqId abortedPatch], Outcome.aborted) := by
  intro i
  induction i with
  | zero =>
    intro chunks s hlen _ hcancel
    cases chunks with
    | nil => exact absurd hlen (Nat.lt_irrefl 0)
    | cons c rest =>
      rw [Nat.add_zero] at hcancel
      simp [runLoop, hcancel, chunksEvents]
  | succ i ih =>
    intro chunks s hlen hbefore hcancel
    cases chunks with
    | nil => exact absurd hlen (Nat.not_lt_zero _)
    | cons c rest =>
      have h0 := hbefore 0 (Nat.succ_pos i)
      rw [Nat.add_zero] at h0
      simp only [List.getD_cons_zero] at h0
      have hrest : ∀ j, j < i → cancel (s + 1 + j) = false ∧
          SafetyManager.validate_targets (rest.getD j noChunk) = true := by
        intro j hj
        have := hbefore (j + 1) (Nat.succ_lt_succ hj)
        rw [List.getD_cons_succ] at this
        have heq : s + 1 + j = s + (j + 1) := by omega
        rw [heq]
        exact this
      have hlen' : i < rest.length := Nat.lt_of_succ_lt_succ hlen
      have hcancel' : cancel (s + 1 + i) = true := by
        have heq : s + 1 + i = s + (i + 1) := by omega
        rw [heq]
        exact hcancel
      simp [runLoop, h0.1, h0.2, ih rest (s + 1) hlen' hrest hcancel',
        chunksEvents, List.take_succ_cons]

theorem runLoop_safetyFail_eq (reqId : String) (rate : ℤ) (cancel : Nat → Bool) :
    ∀ (i : Nat) (chunks : List Chunk) (s : Nat),
      i < chunks.length →
      (∀ j, j < i → cancel (s + j) = false ∧
        SafetyManager.validate_targets (chunks.getD j noChunk) = true) →
      cancel (s + i) = false →
      SafetyManager.validate_targets (chunks.getD i noChunk) = false →
      runLoop reqId rate cancel s chunks =
        (chunksEvents reqId rate (chunks.take i) ++
          [Event.validate (chunks.getD i noChunk) false,
           Event.update reqId safetyFailedPatch], Outcome.safetyFailed) := by
  intro i
  induction i with
  | zero =>
    intro chunks s hlen _ hcancel hval
    cases chunks with
    | nil => exact absurd hlen (Nat.lt_irrefl 0)
    | cons c rest =>
      rw [Nat.add_zero] at hcancel
      simp only [List.getD_cons_zero] at hval ⊢
      simp [runLoop, hcancel, hval, chunksEvents]
  | succ i ih =>
    intro chunks s hlen hbefore hcancel hval
    cases chunks with
    | nil => exact absurd hlen (Nat.not_lt_zero _)
    | cons c rest =>
      have h0 := hbefore 0 (Nat.succ_pos i)
      rw [Nat.add_zero] at h0
      simp only [List.getD_cons_zero] at h0
      have hrest : ∀ j, j < i → cancel (s + 1 + j) = false ∧
          SafetyManager.validate_targets (rest.getD j noChunk) = true := by
        intro j hj
        have := hbefore (j + 1) (Nat.succ_lt_succ hj)
        rw [List.getD_cons_succ] at this
        have heq : s + 1 + j = s + (j + 1) := by omega
        rw [heq]
        exact this
      have hlen' : i < rest.length := Nat.lt_of_succ_lt_succ hlen
      have hcancel' : cancel (s + 1 + i) = false := by
        have heq : s + 1 + i = s + (i + 1) := by omega
        rw [heq]
        exact hcancel
      rw [List.getD_cons_succ] at hval ⊢
      simp [runLoop, h0.1, h0.2, ih rest (s + 1) hlen' hrest hcancel' hval,
        chunksEvents, List.take_succ_cons]

/-- C1, counterexample: `validate_targets` accepts the chunk with
`targets[0] = 10.0` although 10.0 exceeds the default upper joint limit
2.5, so the claimed range check (and the claimed `false` on this input)
does not hold. -/
theorem c1_counterexample :
    SafetyManager.validate_targets c1Chunk = true ∧
    SafetyManager.joint_max.getD 0 0 < 10 ∧
    ¬ ((10 : ℚ) ≤ SafetyManager.joint_max.getD 0 0) := by
  refine ⟨by decide, ?_, ?_⟩ <;> norm_num [SafetyManager.joint_max]

/-- C1 (amended): `validate_targets(chunk)` returns true iff `chunk`'s
`targets` entry is present and is a list of exactly 6 values; the joint
limits `joint_min`/`joint_max` are never consulted, so a chunk with
`targets[0] = 10.0` under the default limits returns true. -/
theorem c1_validate_targets_length_only (c : Chunk) :
    SafetyManager.validate_targets c = true ↔
      ∃ ts, c.targets = some ts ∧ ts.length = 6 := by
  cases h : c.targets with
  | none => simp [SafetyManager.validate_targets, h]
  | some ts =>
    by_cases hlen : ts.length = 6
    · have hne : ts.isEmpty = false := by
        cases ts with
        | nil => simp at hlen
        | cons a l => rfl
      simp [SafetyManager.validate_targets, h, hne, hlen]
    · simp [SafetyManager.validate_targets, h, hlen]

/-- C2, counterexample: for a request whose prompt `"dance"` is not in the
whitelist, the `/command` route still answers 202 (never 400) and a new
Status entry is created, so the store's key set changes. -/
theorem c2_counterexample :
    ("dance" ∉ ALLOWED_PROMPTS) ∧
    (commandRoute [("prompt", Val.str "dance")] [] "r1").1 = 202 ∧
    (commandRoute [("prompt", Val.str "dance")] [] "r1").1 ≠ 400 ∧
    StatusStore.get ([] : Store) "r1" = none ∧
    StatusStore.get (commandRoute [("prompt", Val.str "dance")] [] "r1").2 "r1" ≠
      none := by
  decide

/-- C2 (amended): every POST `/command` request is answered 202 and a
queued Status record is created under the fresh request id, regardless of
the prompt — the whitelist is never consulted and there is no 400 path in
the route. -/
theorem c2_command_route_always_accepts (body : Dict) (store : Store)
    (freshId : String) :
    (commandRoute body store freshId).1 = 202 ∧
    StatusStore.get (commandRoute body store freshId).2 freshId =
      some (commandInitialStatus body) :=
  ⟨rfl, assocGet_assocSet_self _ _ _⟩

/-- C3, counterexample: a record whose state is terminal (`succeeded`) is
still changed by `StatusStore.update` — the store has no terminal-state
guard, so the claimed immutability after a terminal state fails. -/
theorem c3_counterexample :
    (StatusStore.get c3Store "r").bind (fun d => assocGet d "state") =
      some (Val.str "succeeded") ∧
    (StatusStore.get
        (StatusStore.update c3Store "r" [("state", Val.str "executing")])
        "r").bind (fun d => assocGet d "state") =
      some (Val.str "executing") := by
  decide

/-- C3 (amended): `StatusStore.update(id, patch)` is ignored exactly when
the id is absent; when the id is present the patch is merged into the
record unconditionally, regardless of whether its current state is
terminal. -/
theorem c3_update_ignored_only_when_absent (s : Store) (id : String)
    (patch : Dict) :
    (StatusStore.get s id = none → StatusStore.update s id patch = s) ∧
    (∀ d, StatusStore.get s id = some d →
      StatusStore.get (StatusStore.update s id patch) id =
        some (dictUpdate d patch)) := by
  induction s with
  | nil =>
    refine ⟨fun _ => rfl, fun d h => ?_⟩
    simp [StatusStore.get, assocGet] at h
  | cons kv rest ih =>
    constructor
    · intro h
      by_cases hk : kv.1 = id
      · simp [StatusStore.get, assocGet, hk] at h
      · have hrest : StatusStore.get rest id = none := by
          simpa [StatusStore.get, assocGet, hk] using h
        have := ih.1 hrest
        simp only [StatusStore.update] at this ⊢
        simp [hk, this]
    · intro d h
      by_cases hk : kv.1 = id
      · have hd : kv.2 = d := by
          simpa [StatusStore.get, assocGet, hk] using h
        subst hd
        simp [StatusStore.update, StatusStore.get, assocGet, hk]
      · have hrest : StatusStore.get rest id = some d := by
          simpa [StatusStore.get, assocGet, hk] using h
        have := ih.2 d hrest
        simp only [StatusStore.update, StatusStore.get, assocGet] at this ⊢
        simp [hk, this]

/-- Witness for C3's amended theorem at concrete inputs: an absent id
leaves the empty store unchanged, and a patch is merged into the present
(terminal) record of `c3Store`. -/
theorem c3_update_ignored_only_when_absent_witness :
    StatusStore.update ([] : Store) "x" [("state", Val.str "executing")] = [] ∧
    StatusStore.get
        (StatusStore.update c3Store "r" [("phase", Val.str "replay")]) "r" =
      some (dictUpdate
        [("state", Val.str "succeeded"), ("message", Val.str "Completed")]
        [("phase", Val.str "replay")]) :=
  ⟨(c3_update_ignored_only_when_absent [] "x" _).1 rfl,
   (c3_update_ignored_only_when_absent c3Store "r" _).2 _ rfl⟩

/-- C4: `CommandManager.start` raises `BusyError` exactly when the active
slot is occupied; otherwise it returns the fresh id, occupies the slot
with it, clears the cancel flag, and creates a Status record with state
`planning` and message `Accepted: <prompt>` under that id. -/
theorem c4_start_spec (st : CMState) (prompt freshId : String) :
    (CommandManager.start st prompt freshId = Except.error () ↔
      st.active ≠ none) ∧
    (st.active = none →
      ∃ st', CommandManager.start st prompt freshId =
          Except.ok (freshId, st') ∧
        st'.active = some freshId ∧ st'.cancel = false ∧
        (StatusStore.get st'.store freshId).bind (fun d => assocGet d "state") =
          some (Val.str "planning") ∧
        (StatusStore.get st'.store freshId).bind
            (fun d => assocGet d "message") =
          some (Val.str ("Accepted: " ++ prompt))) := by
  constructor
  · cases h : st.active with
    | none => simp [CommandManager.start, h]
    | some a => simp [CommandManager.start, h]
  · intro h
    refine ⟨⟨some freshId, false,
      StatusStore.create st.store freshId (planningStatus prompt)⟩,
      by simp [CommandManager.start, h], rfl, rfl, ?_, ?_⟩
    · show (assocGet (assocSet st.store freshId (planningStatus prompt))
          freshId).bind (fun d => assocGet d "state") = _
      rw [assocGet_assocSet_self]
      rfl
    · show (assocGet (assocSet st.store freshId (planningStatus prompt))
          freshId).bind (fun d => assocGet d "message") = _
      rw [assocGet_assocSet_self]
      simp [planningStatus, assocGet]

/-- Witness for C4 at a concrete empty-slot state: admission succeeds and
occupies the slot with the fresh id. -/
theorem c4_start_spec_witness :
    ∃ st', CommandManager.start ⟨none, true, []⟩ "get the treat" "r1" =
        Except.ok ("r1", st') ∧ st'.active = some "r1" :=
  match (c4_start_spec ⟨none, true, []⟩ "get the treat" "r1").2 rfl with
  | ⟨st', h1, h2, _⟩ => ⟨st', h1, h2⟩

/-- C10: the pacing delay `1 / max(1, rate_hz)` of the worker loop never
divides by zero, is always positive and at most one second, and equals
`1 / rate_hz` whenever `rate_hz ≥ 1`. -/
theorem c10_pacing_delay_safe (rate_hz : ℤ) :
    (max 1 rate_hz : ℤ) ≠ 0 ∧ 0 < pacingDelay rate_hz ∧
      pacingDelay rate_hz ≤ 1 ∧
      (1 ≤ rate_hz → pacingDelay rate_hz = 1 / (rate_hz : ℚ)) := by
  have h1 : (1 : ℤ) ≤ max 1 rate_hz := le_max_left _ _
  have h1q : (1 : ℚ) ≤ ((max 1 rate_hz : ℤ) : ℚ) := by exact_mod_cast h1
  have h0q : (0 : ℚ) < ((max 1 rate_hz : ℤ) : ℚ) :=
    lt_of_lt_of_le zero_lt_one h1q
  refine ⟨by omega, ?_, ?_, ?_⟩
  · rw [pacingDelay]
    exact one_div_pos.mpr h0q
  · rw [pacingDelay]
    exact div_le_one_of_le₀ h1q (le_of_lt h0q)
  · intro hr
    rw [pacingDelay, max_eq_right hr]

/-- Witness for C10 at the default rate 15 Hz (and implicitly at the
degenerate rate 0 through the unconditional conjuncts). -/
theorem c10_pacing_delay_safe_witness :
    (1 : ℤ) ≤ 15 ∧ pacingDelay 15 = 1 / (15 : ℚ) :=
  ⟨by decide, (c10_pacing_delay_safe 15).2.2.2 (by decide)⟩

theorem runLoop_all_durationOk (reqId : String) (rate : ℤ) (cancel : Nat → Bool)
    (chunks : List Chunk) :
    ∀ (s : Nat),
      ((runLoop reqId rate cancel s chunks).1.all durationOnlyOnSuccess) =
        true := by
  induction chunks with
  | nil => intro s; rfl
  | cons c rest ih =>
    intro s
    by_cases hc : cancel s = true
    · simp [runLoop, hc, durationOnlyOnSuccess, isTerminalState, abortedPatch,
        assocGet]
    · have hc' : cancel s = false := by
        cases h : cancel s
        · rfl
        · exact absurd h hc
      by_cases hv : SafetyManager.validate_targets c = true
      · simp only [runLoop, hc', Bool.false_eq_true, if_false, hv, if_true]
        simp [List.all_append, ih, chunkEvents, durationOnlyOnSuccess,
          isTerminalState, chunkPatch, assocGet]
      · have hv' : SafetyManager.validate_targets c = false := by
          cases h : SafetyManager.validate_targets c
          · rfl
          · exact absurd h hv
        simp [runLoop, hc', hv', durationOnlyOnSuccess, isTerminalState,
          safetyFailedPatch, assocGet]

/-- C5: in a non-go-home worker run, if the cancel flag is set when the
`i`-th chunk is received (all earlier chunks having passed the gate), the
worker runs `ArmDriver.home()`, sets the Status to
`{state: aborted, message: "Interrupted by Go Home"}` and exits — the
whole trace is the prefix for the first `i` chunks followed exactly by
home, the aborted update and the `finally` slot release, so no further
chunk is consumed and no further targets are sent. -/
theorem c5_cancel_aborts (reqId prompt : String) (chunks : List Chunk)
    (cancel : Nat → Bool) (rate : ℤ) (joints : List ℚ) (durMs : ℤ) (i : Nat)
    (hi : i < chunks.length)
    (hbefore : ∀ j, j < i → cancel j = false ∧
      SafetyManager.validate_targets (chunks.getD j noChunk) = true)
    (hcancel : cancel i = true) :
    run_job reqId prompt chunks cancel rate joints durMs =
      Event.update reqId executingPatch ::
        (chunksEvents reqId rate (chunks.take i) ++
          [Event.armHome, Event.update reqId abortedPatch,
           Event.clearActive]) := by
  have h := runLoop_cancel_eq reqId rate cancel i chunks 0 hi
    (by intro j hj; simpa using hbefore j hj) (by simpa using hcancel)
  simp [run_job, h]

/-- Witness for C5: a one-chunk stream cancelled at its first chunk
produces exactly home, the aborted update and the slot release. -/
theorem c5_cancel_aborts_witness :
    (0 : Nat) < [goodChunk].length ∧
    run_job "r5" "get the treat" [goodChunk] (fun _ => true) 15 [] 0 =
      Event.update "r5" executingPatch ::
        (chunksEvents "r5" 15 ([goodChunk].take 0) ++
          [Event.armHome, Event.update "r5" abortedPatch,
           Event.clearActive]) :=
  ⟨by decide,
   c5_cancel_aborts "r5" "get the treat" [goodChunk] (fun _ => true) 15 [] 0 0
     (by decide) (fun j hj => absurd hj (Nat.not_lt_zero j)) rfl⟩

/-- C6: (1) in every worker run, each `send_joint_targets` call is
immediately preceded in the trace by a `validate_targets` call that
returned true for the same chunk; (2) when validation fails at chunk `i`
(earlier chunks passing, no cancellation), the driver is never called for
that chunk: the trace ends with the failed validation, the
`{state: failed, message: "safety check failed"}` update and the slot
release, consuming no further chunks. -/
theorem c6_validate_before_send (reqId prompt : String) (chunks : List Chunk)
    (cancel : Nat → Bool) (rate : ℤ) (joints : List ℚ) (durMs : ℤ) :
    sendsGuarded (run_job reqId prompt chunks cancel rate joints durMs) =
      true ∧
    (∀ i, i < chunks.length →
      (∀ j, j < i → cancel j = false ∧
        SafetyManager.validate_targets (chunks.getD j noChunk) = true) →
      cancel i = false →
      SafetyManager.validate_targets (chunks.getD i noChunk) = false →
      run_job reqId prompt chunks cancel rate joints durMs =
        Event.update reqId executingPatch ::
          (chunksEvents reqId rate (chunks.take i) ++
            [Event.validate (chunks.getD i noChunk) false,
             Event.update reqId safetyFailedPatch, Event.clearActive])) := by
  constructor
  · simp only [run_job, sendsGuarded, guardedFrom, List.append_assoc,
      Bool.true_and]
    rw [guardedFrom_append, guardedFrom_runLoop, Bool.true_and]
    apply guardedFrom_of_no_send
    intro c hc
    rcases h2 : (runLoop reqId rate cancel 0 chunks).2 with _ | _ | _
    · rw [h2] at hc
      simp at hc
    · rw [h2] at hc
      simp at hc
    · rw [h2] at hc
      simp only [List.mem_append, List.mem_cons, List.mem_singleton] at hc
      rcases hc with (hc | hc) | hc
      · split at hc <;> simp at hc
      · simp at hc
      · simp at hc
  · intro i hi hbefore hcancel hval
    have h := runLoop_safetyFail_eq reqId rate cancel i chunks 0 hi
      (by intro j hj; simpa using hbefore j hj) (by simpa using hcancel) hval
    simp [run_job, h]

/-- Witness for C6: a run over one valid and one malformed chunk — every
send is guarded, and the failed validation at index 1 ends the trace with
the failure update without a driver call. -/
theorem c6_validate_before_send_witness :
    SafetyManager.validate_targets badChunk = false ∧
    sendsGuarded (run_job "r6" "get the treat" [goodChunk, badChunk]
      (fun _ => false) 15 [] 0) = true ∧
    run_job "r6" "get the treat" [goodChunk, badChunk] (fun _ => false) 15
        [] 0 =
      Event.update "r6" executingPatch ::
        (chunksEvents "r6" 15 ([goodChunk, badChunk].take 1) ++
          [Event.validate ([goodChunk, badChunk].getD 1 noChunk) false,
           Event.update "r6" safetyFailedPatch, Event.clearActive]) :=
  ⟨by decide,
   (c6_validate_before_send "r6" "get the treat" [goodChunk, badChunk]
     (fun _ => false) 15 [] 0).1,
   (c6_validate_before_send "r6" "get the treat" [goodChunk, badChunk]
     (fun _ => false) 15 [] 0).2 1 (by decide)
     (fun j hj => by
       interval_cases j
       exact ⟨rfl, by decide⟩) rfl (by decide)⟩

/-- C7, counterexample: in a completed "pick up the ball" run whose throw
guard holds, the trace has `throw_macro` at index 1 and the
`handoff_macro` update only afterwards at index 2 — no `handoff_macro`
update precedes the macro call and no macro call follows the update, so
the claimed status-update-then-macro order does not occur. -/
theorem c7_counterexample :
    (run_job "r7" "pick up the ball" [] (fun _ => false) 15
        [0, 0, 0, 0, 0, 0] 7).get? 1 = some Event.throwMacroCall ∧
    (run_job "r7" "pick up the ball" [] (fun _ => false) 15
        [0, 0, 0, 0, 0, 0] 7).get? 2 =
      some (Event.update "r7" handoffPatch) ∧
    (((run_job "r7" "pick up the ball" [] (fun _ => false) 15
        [0, 0, 0, 0, 0, 0] 7).take 2).all
      (fun e => e != Event.update "r7" handoffPatch)) = true ∧
    (((run_job "r7" "pick up the ball" [] (fun _ => false) 15
        [0, 0, 0, 0, 0, 0] 7).drop 2).all
      (fun e => e != Event.throwMacroCall)) = true := by
  have hready : SafetyManager.ready_to_throw [0, 0, 0, 0, 0, 0] = true := by
    norm_num [SafetyManager.ready_to_throw]
  have ht : run_job "r7" "pick up the ball" [] (fun _ => false) 15
      [0, 0, 0, 0, 0, 0] 7 =
      [Event.update "r7" executingPatch, Event.throwMacroCall,
       Event.update "r7" handoffPatch, Event.sleep (1/2),
       Event.update "r7" (succeededPatch 7), Event.clearActive] := by
    simp [run_job, runLoop, hready, SafetyManager.workspace_clear]
  rw [ht]
  refine ⟨rfl, rfl, by decide, ?_⟩
  simp

/-- C7 (amended): after a clean completed stream for "pick up the ball"
with `ready_to_throw` and `workspace_clear` holding, the worker invokes
`ArmDriver.throw_macro()` first and then updates the Status to
`{state: handoff_macro, message: "throwing"}`, both before the final
succeeded update. -/
theorem c7_throw_then_handoff (reqId : String) (chunks : List Chunk)
    (cancel : Nat → Bool) (rate : ℤ) (joints : List ℚ) (durMs : ℤ)
    (hclean : ∀ j, j < chunks.length → cancel j = false ∧
      SafetyManager.validate_targets (chunks.getD j noChunk) = true)
    (hready : SafetyManager.ready_to_throw joints = true) :
    run_job reqId "pick up the ball" chunks cancel rate joints durMs =
      Event.update reqId executingPatch ::
        (chunksEvents reqId rate chunks ++
          [Event.throwMacroCall, Event.update reqId handoffPatch,
           Event.sleep (1/2), Event.update reqId (succeededPatch durMs),
           Event.clearActive]) := by
  have h := runLoop_completed_eq reqId rate cancel chunks 0
    (by intro j hj; simpa using hclean j hj)
  simp [run_job, h, hready, SafetyManager.workspace_clear]

/-- Witness for C7's amended theorem: the zero-chunk run with a ready
pose produces macro call, handoff update, then the succeeded update. -/
theorem c7_throw_then_handoff_witness :
    SafetyManager.ready_to_throw [0, 0, 0, 0, 0, 0] = true ∧
    run_job "r7b" "pick up the ball" [] (fun _ => false) 15
        [0, 0, 0, 0, 0, 0] 7 =
      Event.update "r7b" executingPatch ::
        (chunksEvents "r7b" 15 [] ++
          [Event.throwMacroCall, Event.update "r7b" handoffPatch,
           Event.sleep (1/2), Event.update "r7b" (succeededPatch 7),
           Event.clearActive]) :=
  have hready : SafetyManager.ready_to_throw [0, 0, 0, 0, 0, 0] = true := by
    norm_num [SafetyManager.ready_to_throw]
  ⟨hready,
   c7_throw_then_handoff "r7b" [] (fun _ => false) 15 [0, 0, 0, 0, 0, 0] 7
     (fun j hj => absurd hj (Nat.not_lt_zero j)) hready⟩

/-- C8, counterexample: the first chunk yielded by the scripted producer
for "pick up the ball" has a target value 20 (the gripper, in degrees),
and 20 exceeds π, so not every scripted target lies in [-π, π]. -/
theorem c8_counterexample :
    (ModelRunner.infer_scripted "pick up the ball").head?.map
        (fun c => c.targets) = some (some [0, 5, 0, 0, 0, 20]) ∧
    Real.pi < 20 ∧ ¬ ((20 : ℝ) ≤ Real.pi) := by
  refine ⟨rfl, ?_, ?_⟩
  · have h := Real.pi_lt_d2
    linarith
  · have h := Real.pi_lt_d2
    linarith

/-- C8 (amended): every chunk yielded by the scripted producer, for any
instruction, has a targets list of exactly 6 values, and each value lies
in the interval [-15, 50] (the values are degrees, not radians in
[-π, π]). -/
theorem c8_scripted_six_targets_bounded (instruction : String) :
    ((ModelRunner.infer_scripted instruction).all fun c =>
      (c.targets.getD []).length == 6 &&
        ((c.targets.getD []).all fun t =>
          decide (-15 ≤ t) && decide (t ≤ 50))) = true := by
  by_cases h : instruction = "get the treat"
  · simp only [ModelRunner.infer_scripted]
    rw [if_pos h]
    decide
  · simp only [ModelRunner.infer_scripted]
    rw [if_neg h]
    decide

/-- C9, counterexample: the aborted run's terminal update
`{state: aborted, message: "Interrupted by Go Home"}` carries no
`duration_ms` field, so not every transition into a terminal state sets
`duration_ms`. -/
theorem c9_counterexample :
    run_job "r9" "get the treat" [goodChunk] (fun _ => true) 15 [] 5 =
      [Event.update "r9" executingPatch, Event.armHome,
       Event.update "r9" abortedPatch, Event.clearActive] ∧
    assocGet abortedPatch "state" = some (Val.str "aborted") ∧
    assocGet abortedPatch "duration_ms" = none := by
  refine ⟨?_, rfl, rfl⟩
  simp [run_job, runLoop, chunksEvents]

/-- C9 (amended): in a worker run, a status update whose patch carries a
terminal state sets `duration_ms` exactly when that state is `succeeded`
(the aborted and safety-failure updates do not set it), and no update of
the homing worker ever sets `duration_ms` — including its own terminal
updates. -/
theorem c9_duration_only_on_success (reqId prompt : String)
    (chunks : List Chunk) (cancel : Nat → Bool) (rate : ℤ) (joints : List ℚ)
    (durMs : ℤ) (homeError : Option String) :
    ((run_job reqId prompt chunks cancel rate joints durMs).all
      durationOnlyOnSuccess) = true ∧
    ((run_home reqId homeError).all updateHasNoDuration) = true := by
  constructor
  · simp only [run_job, List.all_cons, List.all_append,
      runLoop_all_durationOk, Bool.true_and, Bool.and_true]
    have hexec : durationOnlyOnSuccess (Event.update reqId executingPatch) =
        true := by
      simp [durationOnlyOnSuccess, isTerminalState, executingPatch, assocGet]
    rw [hexec, Bool.true_and]
    rcases h2 : (runLoop reqId rate cancel 0 chunks).2 with _ | _ | _
    · simp [durationOnlyOnSuccess]
    · simp [durationOnlyOnSuccess]
    · split <;>
        simp [durationOnlyOnSuccess, isTerminalState, handoffPatch,
          succeededPatch, assocGet]
      intro x _ _ _ hx
      rcases hx with rfl | rfl | rfl <;> simp [assocGet]
  · rcases homeError with _ | e
    · simp [run_home, updateHasNoDuration, homeSucceededPatch, assocGet]
    · simp [run_home, updateHasNoDuration, homeFailedPatch, assocGet]
